import Mathlib

/-!
Verification of the CrawlStudio frontier controller against its
natural-language specification.

The development shallowly embeds the two crawl controllers of the
repository:

* `DepthLimitedCrawler.crawl_depth_limited` from `depth_crawler_demo.py`
  (the level-by-level, depth-bounded controller), embedded as
  `processItems` (the inner per-level `for` loop over work items,
  lines 81-150), `crawlLoop` (the outer `while current_level` loop,
  lines 68-155) and `runCrawl` (the whole method, including the summary
  computed at lines 157-164).
* the link extractors `extract_guardian_links` of both demo scripts
  (`depth_crawler_demo.py` lines 33-54, `recursive_crawling_demo.py`
  lines 33-61), embedded from the point where the regular-expression
  matches have been collected: the embedding takes the ordered list of
  raw regex matches as input and performs the set-collection, the
  article-path filter, the final `list(set(...))` conversion and (for
  the recursive variant) the `[:5]` truncation exactly as the source
  does.  CPython's `set` iteration order is unspecified; the embedding
  fixes a canonical order via `List.dedup`.
* the queue-insertion loop of `RecursiveCrawler.crawl_recursive`
  (`recursive_crawling_demo.py` lines 116-119), as `recAddLinks`.

Modelling conventions:

* The fetch backend (`self.backend.crawl(url, format="markdown")`) is an
  external collaborator; a crawl environment carries
  `fetch : String → Except String String`, where `Except.ok md` models a
  successful fetch whose `result.markdown` is `md` (Python `None` is
  identified with the empty string: the source only uses
  `result.markdown or ""`, `len(...) if ... else 0` and a falsy test,
  which agree on that identification) and `Except.error e` models the
  backend raising an exception with description `str(e) = e`.
* `extract` in the environment stands for the call
  `await self.extract_guardian_links(result.markdown or "")` made by the
  controller at line 125; the body of that method is embedded separately
  (`extract_guardian_links`) over the abstract regex-match list, since the
  controller-level claims quantify over the extractor's output.
* The `crawled_urls` Python `set` is modelled as a duplicate-free
  `List String` (elements are only added when absent, mirroring that a
  set add of a present element is a no-op); the `depth_results` dict
  (whose keys are inserted in strictly increasing order, so insertion
  order is key order and no key is ever overwritten) is modelled as an
  association list in insertion order.
* `await asyncio.sleep(0.5)` (line 136) is modelled by incrementing a
  `sleeps` counter, so that rate-limiting behaviour is observable.
* Wall-clock durations (`time.time()`) are not modelled; the `duration`
  field of a page result is omitted.
-/

/-- A recorded page outcome: the dict built at lines 109-116 (success)
or lines 140-148 (failure) of `depth_crawler_demo.py`, minus the
wall-clock `duration` field. -/
structure PageResult where
  url : String
  depth : Nat
  title : String
  content_length : Nat
  success : Bool
  error : Option String
deriving DecidableEq, Repr

/-- The external collaborators of one crawl run: the fetch backend and
the link extractor (see the module docstring). -/
structure CrawlEnv where
  fetch : String → Except String String
  extract : String → List String

/-- The mutable state of one execution of the inner `for` loop over a
level (lines 78-150): `visited` is `self.crawled_urls`, `pagesAtLevel`
is `pages_at_level`, `levelResults` is `level_results`, `allResults` is
`all_results`, `nextLevel` is `next_level` and `sleeps` counts executed
`asyncio.sleep` calls. -/
structure LevelState where
  visited : List String
  pagesAtLevel : Nat
  levelResults : List PageResult
  allResults : List PageResult
  nextLevel : List (String × Nat)
  sleeps : Nat
deriving Repr

/-- Character-level `str.split(sep)` for a one-character separator
(primitive recursion, so that the kernel can evaluate it; Python splits
by characters, as does this). -/
def splitOnChar (c : Char) : List Char → List (List Char)
  | [] => [[]]
  | x :: xs =>
    match splitOnChar c xs with
    | [] => if x = c then [[], []] else [[x]]
    | y :: ys => if x = c then [] :: y :: ys else (x :: y) :: ys

/-- `b` starts with the character sequence `p`. -/
def hasPrefixChars : List Char → List Char → Bool
  | [], _ => true
  | _, [] => false
  | a :: as, b :: bs => a = b && hasPrefixChars as bs

/-- Python `str.strip()`: whitespace removed from both ends. -/
def stripChars (l : List Char) : List Char :=
  ((l.dropWhile Char.isWhitespace).reverse.dropWhile Char.isWhitespace).reverse

/-- Title extraction (lines 99-105): the first line of the markdown that
starts with `"# "` yields the title (`line[2:].strip()[:80]`); otherwise
the title stays `"Unknown"`.  An empty markdown (Python falsy) also
yields `"Unknown"`, as in the source. -/
def extractTitle (markdown : String) : String :=
  match (splitOnChar (Char.ofNat 10) markdown.data).find?
      (fun l => hasPrefixChars ("# ".data) l) with
  | some l => String.mk ((stripChars (l.drop 2)).take 80)
  | none => "Unknown"

/-- The successful page result built at lines 109-116. -/
def mkSuccessResult (depth : Nat) (url markdown : String) : PageResult :=
  { url := url, depth := depth, title := extractTitle markdown,
    content_length := markdown.length, success := true, error := none }

/-- The failed page result built at lines 140-148: title `"Failed"`,
zero content length, and the exception description in `error`. -/
def mkFailedResult (depth : Nat) (url err : String) : PageResult :=
  { url := url, depth := depth, title := "Failed", content_length := 0,
    success := false, error := some err }

/-- Lines 127-130: `for link in new_links[:5]: if link not in
self.crawled_urls: next_level.append((link, depth + 1))`.  (The `[:5]`
truncation is applied by the caller, as in the source.) -/
def addLinks (depth : Nat) : List String → LevelState → LevelState
  | [], s => s
  | link :: rest, s =>
    if link ∈ s.visited then addLinks depth rest s
    else addLinks depth rest { s with nextLevel := s.nextLevel ++ [(link, depth + 1)] }

/-- The success branch of the `try` (lines 91-136): mark the URL
visited, bump the per-level counter, record the successful result in
both result lists, extract and enqueue links only when
`depth < max_depth`, then sleep. -/
def stepSuccess (env : CrawlEnv) (maxDepth depth : Nat) (url markdown : String)
    (s : LevelState) : LevelState :=
  let pr := mkSuccessResult depth url markdown
  let s1 : LevelState :=
    { visited := s.visited ++ [url], pagesAtLevel := s.pagesAtLevel + 1,
      levelResults := s.levelResults ++ [pr], allResults := s.allResults ++ [pr],
      nextLevel := s.nextLevel, sleeps := s.sleeps }
  let s2 := if depth < maxDepth then addLinks depth ((env.extract markdown).take 5) s1 else s1
  { s2 with sleeps := s2.sleeps + 1 }

/-- The `except` branch (lines 138-150): record a failed result in both
result lists; the visited set, the counter and the sleep count are NOT
touched (the source adds to `crawled_urls`, increments `pages_at_level`
and sleeps only inside the `try`, after the fetch returned). -/
def stepFailure (depth : Nat) (url err : String) (s : LevelState) : LevelState :=
  let pr := mkFailedResult depth url err
  { s with levelResults := s.levelResults ++ [pr], allResults := s.allResults ++ [pr] }

/-- The inner `for url, url_depth in current_level` loop (lines 81-150):
skip already-visited URLs (`continue`), stop the level once
`pages_at_level >= max_pages_per_level` (`break`), otherwise dispatch
the fetch and take the success or failure branch.  The source ignores
the per-item `url_depth` and uses the level's `depth` throughout, as
does the embedding. -/
def processItems (env : CrawlEnv) (maxDepth maxPages depth : Nat) :
    List (String × Nat) → LevelState → LevelState
  | [], s => s
  | (url, _) :: rest, s =>
    if url ∈ s.visited then processItems env maxDepth maxPages depth rest s
    else if maxPages ≤ s.pagesAtLevel then s
    else
      match env.fetch url with
      | Except.ok markdown =>
          processItems env maxDepth maxPages depth rest (stepSuccess env maxDepth depth url markdown s)
      | Except.error e =>
          processItems env maxDepth maxPages depth rest (stepFailure depth url e s)

/-- The crawl-run state threaded through the outer loop: `crawled_urls`,
`all_results`, the `depth_results` dict (as an association list in key
insertion order) and the executed-sleep count. -/
structure CrawlState where
  visited : List String
  allResults : List PageResult
  depthResults : List (Nat × List PageResult)
  sleeps : Nat
deriving Repr

/-- The outer `while current_level` loop (lines 68-155): read the level
depth from the first item, stop when it exceeds `max_depth`, process the
level starting from a fresh `pages_at_level = 0`, `level_results = []`,
`next_level = []`, record the level's results under its depth, and
continue with `next_level`.  The loop is fuelled; `runCrawl` supplies
fuel `max_depth + 2`, which the depth check makes sufficient (each
iteration's level sits one depth deeper than the previous one, so at
most `max_depth + 2` iterations can start). -/
def crawlLoop (env : CrawlEnv) (maxDepth maxPages : Nat) :
    Nat → List (String × Nat) → CrawlState → CrawlState
  | 0, _, st => st
  | _ + 1, [], st => st
  | fuel + 1, (u0, d0) :: restLvl, st =>
    if maxDepth < d0 then st
    else
      let ls := processItems env maxDepth maxPages d0 ((u0, d0) :: restLvl)
        { visited := st.visited, pagesAtLevel := 0, levelResults := [],
          allResults := st.allResults, nextLevel := [], sleeps := st.sleeps }
      crawlLoop env maxDepth maxPages fuel ls.nextLevel
        { visited := ls.visited, allResults := ls.allResults,
          depthResults := st.depthResults ++ [(d0, ls.levelResults)],
          sleeps := ls.sleeps }

/-- `DepthLimitedCrawler(...).crawl_depth_limited(start_url)`: the
constructor (lines 26-31) performs no validation of the configuration,
so the run is total; the crawl starts from `[(start_url, 0)]` with empty
visited set and no results (line 65). -/
def runCrawl (env : CrawlEnv) (maxDepth maxPages : Nat) (startUrl : String) : CrawlState :=
  crawlLoop env maxDepth maxPages (maxDepth + 2) [(startUrl, 0)]
    { visited := [], allResults := [], depthResults := [], sleeps := 0 }

/-- `max(self.depth_results.keys()) if self.depth_results else 0`
(line 158). -/
def maxDepthReached (st : CrawlState) : Nat :=
  (st.depthResults.map Prod.fst).foldl max 0

/-- `len(all_results)` (line 159). -/
def totalPages (st : CrawlState) : Nat :=
  st.allResults.length

/-- `len([r for r in all_results if r["success"]])` (line 160). -/
def successfulPages (st : CrawlState) : Nat :=
  (st.allResults.filter (fun r => r.success)).length

/-- `{d: len(results) for d, results in self.depth_results.items()}`
(line 161). -/
def depthBreakdown (st : CrawlState) : List (Nat × Nat) :=
  st.depthResults.map (fun p => (p.1, p.2.length))

/-- The per-item outcome a dispatched URL gets, as a function of the
environment: used to characterise a fully dispatched level. -/
def mkPageResult (env : CrawlEnv) (depth : Nat) (url : String) : PageResult :=
  match env.fetch url with
  | Except.ok md => mkSuccessResult depth url md
  | Except.error e => mkFailedResult depth url e

/-- `True` iff the fetch of this URL succeeds in this environment. -/
def fetchOk (env : CrawlEnv) (url : String) : Bool :=
  match env.fetch url with
  | Except.ok _ => true
  | Except.error _ => false

/-! ### The link extractors -/

/-- Python `str.isdigit()` restricted to ASCII digits: nonempty and
all-digits. -/
def isDigitStr (s : String) : Bool :=
  !s.data.isEmpty && s.data.all Char.isDigit

/-- `urlparse(link).path.strip('/').split('/')` for the absolute
`https://` URLs the Guardian regex produces: drop the scheme, drop the
host (everything up to the first `/`), and strip empty segments at both
ends (the effect of `strip('/')` before splitting). -/
def pathParts (link : String) : List String :=
  let rest := if hasPrefixChars ("https://".data) link.data
              then link.data.drop 8 else link.data
  let segs := (splitOnChar (Char.ofNat 47) rest).drop 1
  (((segs.dropWhile List.isEmpty).reverse.dropWhile List.isEmpty).reverse).map String.mk

/-- The article filter (lines 47-52 of `depth_crawler_demo.py`, lines
54-59 of `recursive_crawling_demo.py`): at least five path segments, the
second of which is a 4-digit year. -/
def isArticleLink (link : String) : Bool :=
  let parts := pathParts link
  decide (5 ≤ parts.length) &&
    (match parts.get? 1 with
     | some p => isDigitStr p && decide (p.length = 4)
     | none => false)

/-- `DepthLimitedCrawler.extract_guardian_links` (lines 33-54 of
`depth_crawler_demo.py`), from the collected regex-match list onwards:
`links = set(matches)`; filter to article links; `list(set(...))`.
Note there is NO truncation to 5 here; the `[:5]` is applied by the
caller at line 127. -/
def extract_guardian_links (ms : List String) : List String :=
  (ms.dedup.filter isArticleLink).dedup

/-- `RecursiveCrawler.extract_guardian_links` (lines 33-61 of
`recursive_crawling_demo.py`): the same pipeline (matches of both
patterns, in match order, as input) followed by `[:5]`. -/
def extract_guardian_links_rec (ms : List String) : List String :=
  ((ms.dedup.filter isArticleLink).dedup).take 5

/-- The queue-insertion loop of `RecursiveCrawler.crawl_recursive`
(lines 116-119): `for link in new_links: if link not in
self.crawled_urls and link not in queue: queue.append(link)`. -/
def recAddLinks (crawled : List String) : List String → List String → List String
  | [], queue => queue
  | link :: rest, queue =>
    if link ∉ crawled ∧ link ∉ queue then recAddLinks crawled rest (queue ++ [link])
    else recAddLinks crawled rest queue


/-! ### Concrete environments used to settle the scenario claims -/

/-- The empty starting level state of the inner loop (lines 69, 78-79):
fresh `next_level`, zero `pages_at_level`, empty result lists. -/
def s0 : LevelState :=
  { visited := [], pagesAtLevel := 0, levelResults := [], allResults := [],
    nextLevel := [], sleeps := 0 }

/-- A backend where every fetch succeeds with empty content and no page
links to anything. -/
def envTrivial : CrawlEnv :=
  { fetch := fun _ => Except.ok "", extract := fun _ => [] }

/-- A yields B and C; B's fetch raises; C succeeds and links back to B. -/
def envC1 : CrawlEnv :=
  { fetch := fun u =>
      if u = "A" then Except.ok "a"
      else if u = "C" then Except.ok "c"
      else Except.error "eB",
    extract := fun md =>
      if md = "a" then ["B", "C"] else if md = "c" then ["B"] else [] }

/-- A yields B, C and D; every other fetch raises. -/
def envC2 : CrawlEnv :=
  { fetch := fun u => if u = "A" then Except.ok "a" else Except.error "down",
    extract := fun md => if md = "a" then ["B", "C", "D"] else [] }

/-- The Section-8 scenario backend: fetch(A) succeeds and the extractor
yields B, C, D; fetch(B) succeeds with no further links; fetch(C) fails
(and so does any other fetch, in particular fetch(D)). -/
def envC3 : CrawlEnv :=
  { fetch := fun u =>
      if u = "A" then Except.ok "a"
      else if u = "B" then Except.ok "b"
      else Except.error "boom",
    extract := fun md => if md = "a" then ["B", "C", "D"] else [] }

/-- Every fetch succeeds and every page links to the same URL X: two
parents at one depth both discover X. -/
def envC4 : CrawlEnv :=
  { fetch := fun _ => Except.ok "m", extract := fun _ => ["X"] }

/-- A yields B; B's fetch raises. -/
def envC5 : CrawlEnv :=
  { fetch := fun u => if u = "A" then Except.ok "a" else Except.error "down",
    extract := fun md => if md = "a" then ["B"] else [] }

/-- Only the fetch of C raises; everything else succeeds with empty
content. -/
def envC6w : CrawlEnv :=
  { fetch := fun u => if u = "C" then Except.error "boom" else Except.ok "",
    extract := fun _ => [] }

/-- A yields B and C; B (fetched first at depth 1) links to C, which is
then fetched later at the same depth 1, leaving depth 2 with an
already-visited-only level. -/
def envC10 : CrawlEnv :=
  { fetch := fun u =>
      if u = "A" then Except.ok "a" else if u = "B" then Except.ok "b" else Except.ok "c",
    extract := fun md => if md = "a" then ["B", "C"] else if md = "b" then ["C"] else [] }

/-- Six distinct Guardian article URLs (all matching the article-path
filter), as a regex-match list. -/
def gl6 : List String :=
  ["https://www.theguardian.com/world/2024/05/10/a",
   "https://www.theguardian.com/world/2024/05/10/b",
   "https://www.theguardian.com/world/2024/05/10/c",
   "https://www.theguardian.com/world/2024/05/10/d",
   "https://www.theguardian.com/world/2024/05/10/e",
   "https://www.theguardian.com/world/2024/05/10/f"]

/-! ### Structural lemmas about the per-level loop -/

/-- The entries the enqueue loop appends: candidates not yet visited,
tagged with `depth + 1`. -/
def newEntries (d : Nat) (visited : List String) (ls : List String) : List (String × Nat) :=
  (ls.filter (fun l => decide (l ∉ visited))).map (fun l => (l, d + 1))

theorem newEntries_nil (d : Nat) (visited : List String) : newEntries d visited [] = [] := rfl

theorem addLinks_eq (d : Nat) (ls : List String) (s : LevelState) :
    addLinks d ls s = { s with nextLevel := s.nextLevel ++ newEntries d s.visited ls } := by
  induction ls generalizing s with
  | nil => simp [addLinks, newEntries]
  | cons l rest ih =>
    rw [addLinks]
    split
    · rw [ih]
      simp [newEntries, *]
    · rw [ih]
      simp only [newEntries, List.filter_cons]
      simp [*]

theorem stepSuccess_visited (env : CrawlEnv) (mD d : Nat) (url md : String) (s : LevelState) :
    (stepSuccess env mD d url md s).visited = s.visited ++ [url] := by
  unfold stepSuccess
  split <;> simp [addLinks_eq]

theorem stepSuccess_pages (env : CrawlEnv) (mD d : Nat) (url md : String) (s : LevelState) :
    (stepSuccess env mD d url md s).pagesAtLevel = s.pagesAtLevel + 1 := by
  unfold stepSuccess
  split <;> simp [addLinks_eq]

theorem stepSuccess_levelResults (env : CrawlEnv) (mD d : Nat) (url md : String) (s : LevelState) :
    (stepSuccess env mD d url md s).levelResults
      = s.levelResults ++ [mkSuccessResult d url md] := by
  unfold stepSuccess
  split <;> simp [addLinks_eq]

theorem stepSuccess_allResults (env : CrawlEnv) (mD d : Nat) (url md : String) (s : LevelState) :
    (stepSuccess env mD d url md s).allResults
      = s.allResults ++ [mkSuccessResult d url md] := by
  unfold stepSuccess
  split <;> simp [addLinks_eq]

theorem stepSuccess_sleeps (env : CrawlEnv) (mD d : Nat) (url md : String) (s : LevelState) :
    (stepSuccess env mD d url md s).sleeps = s.sleeps + 1 := by
  unfold stepSuccess
  split <;> simp [addLinks_eq]

theorem stepSuccess_nextLevel (env : CrawlEnv) (mD d : Nat) (url md : String)
    (s : LevelState) :
    (stepSuccess env mD d url md s).nextLevel
      = s.nextLevel ++ (if d < mD
          then newEntries d (s.visited ++ [url]) ((env.extract md).take 5)
          else []) := by
  unfold stepSuccess
  split <;> simp [addLinks_eq, *]

theorem stepSuccess_nextLevel_mem (env : CrawlEnv) (mD d : Nat) (url md : String)
    (s : LevelState) (p : String × Nat) (hp : p ∈ (stepSuccess env mD d url md s).nextLevel) :
    p ∈ s.nextLevel ∨ (p.1 ∉ s.visited ∧ p.2 = d + 1) := by
  rw [stepSuccess_nextLevel] at hp
  simp only [List.mem_append] at hp
  rcases hp with hp | hp
  · exact Or.inl hp
  · split at hp
    · simp only [newEntries, List.mem_map, List.mem_filter, decide_eq_true_eq] at hp
      obtain ⟨l, ⟨_, hnv⟩, rfl⟩ := hp
      refine Or.inr ⟨fun hmem => hnv ?_, rfl⟩
      simp [hmem]
    · simp at hp

theorem stepFailure_eq (d : Nat) (url err : String) (s : LevelState) :
    stepFailure d url err s
      = { s with levelResults := s.levelResults ++ [mkFailedResult d url err],
                 allResults := s.allResults ++ [mkFailedResult d url err] } := rfl

theorem mkSuccessResult_success (d : Nat) (url md : String) :
    (mkSuccessResult d url md).success = true := rfl

theorem mkFailedResult_success (d : Nat) (url err : String) :
    (mkFailedResult d url err).success = false := rfl

theorem mkPageResult_success (env : CrawlEnv) (d : Nat) (url : String) :
    (mkPageResult env d url).success = fetchOk env url := by
  unfold mkPageResult fetchOk
  cases env.fetch url <;> rfl

/-- Invariant of the inner loop: the visited set is exactly the list of
successfully fetched URLs (in dispatch order), it is duplicate-free, and
the number of executed sleeps equals the number of successes. -/
theorem processItems_inv (env : CrawlEnv) (mD mP d : Nat) (items : List (String × Nat))
    (s : LevelState)
    (h1 : s.visited = (s.allResults.filter (fun r => r.success)).map (fun r => r.url))
    (h2 : s.visited.Nodup)
    (h3 : s.sleeps = (s.allResults.filter (fun r => r.success)).length) :
    (processItems env mD mP d items s).visited
        = ((processItems env mD mP d items s).allResults.filter
            (fun r => r.success)).map (fun r => r.url)
    ∧ (processItems env mD mP d items s).visited.Nodup
    ∧ (processItems env mD mP d items s).sleeps
        = ((processItems env mD mP d items s).allResults.filter
            (fun r => r.success)).length := by
  induction items generalizing s with
  | nil => exact ⟨h1, h2, h3⟩
  | cons p rest ih =>
    obtain ⟨url, du⟩ := p
    rw [processItems]
    by_cases hvis : url ∈ s.visited
    · rw [if_pos hvis]
      exact ih s h1 h2 h3
    · rw [if_neg hvis]
      by_cases hcap : mP ≤ s.pagesAtLevel
      · rw [if_pos hcap]
        exact ⟨h1, h2, h3⟩
      · rw [if_neg hcap]
        cases hfetch : env.fetch url with
        | ok md =>
          refine ih _ ?_ ?_ ?_
          · rw [stepSuccess_visited, stepSuccess_allResults]
            simp [List.filter_append, mkSuccessResult, h1]
          · rw [stepSuccess_visited]
            simp only [List.nodup_append, List.nodup_cons, List.not_mem_nil,
              not_false_iff, List.nodup_nil, and_true, List.Disjoint, true_and]
            refine ⟨h2, ?_⟩
            intro a ha hb
            simp only [List.mem_singleton] at hb
            subst hb
            exact hvis ha
          · rw [stepSuccess_sleeps, stepSuccess_allResults]
            simp [List.filter_append, mkSuccessResult, h3]
        | error e =>
          refine ih _ ?_ ?_ ?_
          · rw [stepFailure_eq]
            simp [List.filter_append, mkFailedResult, h1]
          · rw [stepFailure_eq]
            exact h2
          · rw [stepFailure_eq]
            simp [List.filter_append, mkFailedResult, h3]

/-- The run-level version of `processItems_inv`, by induction on the
fuel of the outer loop. -/
theorem crawlLoop_inv (env : CrawlEnv) (mD mP : Nat) (fuel : Nat)
    (lvl : List (String × Nat)) (st : CrawlState)
    (h1 : st.visited = (st.allResults.filter (fun r => r.success)).map (fun r => r.url))
    (h2 : st.visited.Nodup)
    (h3 : st.sleeps = (st.allResults.filter (fun r => r.success)).length) :
    (crawlLoop env mD mP fuel lvl st).visited
        = ((crawlLoop env mD mP fuel lvl st).allResults.filter
            (fun r => r.success)).map (fun r => r.url)
    ∧ (crawlLoop env mD mP fuel lvl st).visited.Nodup
    ∧ (crawlLoop env mD mP fuel lvl st).sleeps
        = ((crawlLoop env mD mP fuel lvl st).allResults.filter
            (fun r => r.success)).length := by
  induction fuel generalizing lvl st with
  | zero => exact ⟨h1, h2, h3⟩
  | succ fuel ih =>
    cases lvl with
    | nil => exact ⟨h1, h2, h3⟩
    | cons hd restLvl =>
      obtain ⟨u0, d0⟩ := hd
      rw [crawlLoop]
      by_cases hd0 : mD < d0
      · rw [if_pos hd0]
        exact ⟨h1, h2, h3⟩
      · rw [if_neg hd0]
        have hinv := processItems_inv env mD mP d0 ((u0, d0) :: restLvl)
          { visited := st.visited, pagesAtLevel := 0, levelResults := [],
            allResults := st.allResults, nextLevel := [], sleeps := st.sleeps }
          h1 h2 h3
        exact ih _ _ hinv.1 hinv.2.1 hinv.2.2

/-- Per-level cap invariant: the per-level counter counts exactly the
successful results of the level, and never passes `max_pages_per_level`
(the counter is only incremented under the `pages_at_level <
max_pages_per_level` guard, and only on success). -/
theorem processItems_cap (env : CrawlEnv) (mD mP d : Nat) (items : List (String × Nat))
    (s : LevelState)
    (hpages : s.pagesAtLevel ≤ mP)
    (hcnt : (s.levelResults.filter (fun r => r.success)).length = s.pagesAtLevel) :
    (processItems env mD mP d items s).pagesAtLevel ≤ mP
    ∧ ((processItems env mD mP d items s).levelResults.filter
        (fun r => r.success)).length = (processItems env mD mP d items s).pagesAtLevel := by
  induction items generalizing s with
  | nil => exact ⟨hpages, hcnt⟩
  | cons p rest ih =>
    obtain ⟨url, du⟩ := p
    rw [processItems]
    by_cases hvis : url ∈ s.visited
    · rw [if_pos hvis]
      exact ih s hpages hcnt
    · rw [if_neg hvis]
      by_cases hcap : mP ≤ s.pagesAtLevel
      · rw [if_pos hcap]
        exact ⟨hpages, hcnt⟩
      · rw [if_neg hcap]
        cases hfetch : env.fetch url with
        | ok md =>
          refine ih _ ?_ ?_
          · rw [stepSuccess_pages]
            omega
          · rw [stepSuccess_pages, stepSuccess_levelResults]
            simp [List.filter_append, mkSuccessResult, hcnt]
        | error e =>
          refine ih _ ?_ ?_
          · exact hpages
          · rw [stepFailure_eq]
            simp [List.filter_append, mkFailedResult, hcnt]

/-- Every depth bucket the outer loop records contains at most
`max_pages_per_level` successful results. -/
theorem crawlLoop_cap (env : CrawlEnv) (mD mP : Nat) (fuel : Nat)
    (lvl : List (String × Nat)) (st : CrawlState)
    (h : ∀ b ∈ st.depthResults, ((b.2.filter (fun r => r.success)).length ≤ mP)) :
    ∀ b ∈ (crawlLoop env mD mP fuel lvl st).depthResults,
      ((b.2.filter (fun r => r.success)).length ≤ mP) := by
  induction fuel generalizing lvl st with
  | zero => exact h
  | succ fuel ih =>
    cases lvl with
    | nil => exact h
    | cons hd restLvl =>
      obtain ⟨u0, d0⟩ := hd
      rw [crawlLoop]
      by_cases hd0 : mD < d0
      · rw [if_pos hd0]
        exact h
      · rw [if_neg hd0]
        refine ih _ _ ?_
        intro b hb
        simp only [List.mem_append, List.mem_singleton] at hb
        rcases hb with hb | hb
        · exact h b hb
        · subst hb
          have hc := processItems_cap env mD mP d0 ((u0, d0) :: restLvl)
            { visited := st.visited, pagesAtLevel := 0, levelResults := [],
              allResults := st.allResults, nextLevel := [], sleeps := st.sleeps }
            (Nat.zero_le mP) (by simp)
          simpa [hc.2] using hc.1

/-- Every result appended by the inner loop carries the level's depth. -/
theorem processItems_results_mem (env : CrawlEnv) (mD mP d : Nat)
    (items : List (String × Nat)) (s : LevelState) :
    ∀ r ∈ (processItems env mD mP d items s).allResults,
      r ∈ s.allResults ∨ r.depth = d := by
  induction items generalizing s with
  | nil => exact fun r hr => Or.inl hr
  | cons p rest ih =>
    obtain ⟨url, du⟩ := p
    rw [processItems]
    by_cases hvis : url ∈ s.visited
    · rw [if_pos hvis]
      exact ih s
    · rw [if_neg hvis]
      by_cases hcap : mP ≤ s.pagesAtLevel
      · rw [if_pos hcap]
        exact fun r hr => Or.inl hr
      · rw [if_neg hcap]
        cases hfetch : env.fetch url with
        | ok md =>
          intro r hr
          rcases ih _ r hr with hr' | hr'
          · rw [stepSuccess_allResults] at hr'
            simp only [List.mem_append, List.mem_singleton] at hr'
            rcases hr' with hr' | hr'
            · exact Or.inl hr'
            · subst hr'
              exact Or.inr rfl
          · exact Or.inr hr'
        | error e =>
          intro r hr
          rcases ih _ r hr with hr' | hr'
          · rw [stepFailure_eq] at hr'
            simp only [List.mem_append, List.mem_singleton] at hr'
            rcases hr' with hr' | hr'
            · exact Or.inl hr'
            · subst hr'
              exact Or.inr rfl
          · exact Or.inr hr'

/-- No recorded result ever exceeds `max_depth`: the outer loop breaks
before processing a level whose depth is greater than `max_depth`. -/
theorem crawlLoop_depth_le (env : CrawlEnv) (mD mP : Nat) (fuel : Nat)
    (lvl : List (String × Nat)) (st : CrawlState)
    (h : ∀ r ∈ st.allResults, r.depth ≤ mD) :
    ∀ r ∈ (crawlLoop env mD mP fuel lvl st).allResults, r.depth ≤ mD := by
  induction fuel generalizing lvl st with
  | zero => exact h
  | succ fuel ih =>
    cases lvl with
    | nil => exact h
    | cons hd restLvl =>
      obtain ⟨u0, d0⟩ := hd
      rw [crawlLoop]
      by_cases hd0 : mD < d0
      · rw [if_pos hd0]
        exact h
      · rw [if_neg hd0]
        refine ih _ _ ?_
        intro r hr
        rcases processItems_results_mem env mD mP d0 ((u0, d0) :: restLvl)
          { visited := st.visited, pagesAtLevel := 0, levelResults := [],
            allResults := st.allResults, nextLevel := [], sleeps := st.sleeps } r hr with hr' | hr'
        · exact h r hr'
        · omega

/-- Everything the inner loop puts into `next_level` beyond its initial
content is an unvisited-at-enqueue-time URL tagged with `depth + 1`; in
particular it was unvisited when the level started. -/
theorem processItems_next_mem (env : CrawlEnv) (mD mP d : Nat)
    (items : List (String × Nat)) (s : LevelState) :
    ∀ p ∈ (processItems env mD mP d items s).nextLevel,
      p ∈ s.nextLevel ∨ (p.1 ∉ s.visited ∧ p.2 = d + 1) := by
  induction items generalizing s with
  | nil => exact fun p hp => Or.inl hp
  | cons it rest ih =>
    obtain ⟨url, du⟩ := it
    rw [processItems]
    by_cases hvis : url ∈ s.visited
    · rw [if_pos hvis]
      exact ih s
    · rw [if_neg hvis]
      by_cases hcap : mP ≤ s.pagesAtLevel
      · rw [if_pos hcap]
        exact fun p hp => Or.inl hp
      · rw [if_neg hcap]
        cases hfetch : env.fetch url with
        | ok md =>
          intro p hp
          rcases ih _ p hp with hp' | hp'
          · rcases stepSuccess_nextLevel_mem env mD d url md s p hp' with hp'' | hp''
            · exact Or.inl hp''
            · exact Or.inr hp''
          · obtain ⟨hnv, hdep⟩ := hp'
            rw [stepSuccess_visited] at hnv
            simp only [List.mem_append] at hnv
            push_neg at hnv
            exact Or.inr ⟨hnv.1, hdep⟩
        | error e =>
          intro p hp
          rcases ih _ p hp with hp' | hp'
          · exact Or.inl hp'
          · exact Or.inr hp'

/-- When a level's URLs are pairwise distinct, none is visited yet, and
the level fits under the per-level cap, the inner loop dispatches every
item and the level's results are exactly the per-URL outcomes, in
order. -/
theorem processItems_complete (env : CrawlEnv) (mD mP d : Nat)
    (items : List (String × Nat)) (s : LevelState)
    (hnd : (items.map Prod.fst).Nodup)
    (hdisj : ∀ p ∈ items, p.1 ∉ s.visited)
    (hcap : s.pagesAtLevel + items.length ≤ mP) :
    (processItems env mD mP d items s).levelResults
      = s.levelResults ++ items.map (fun p => mkPageResult env d p.1) := by
  induction items generalizing s with
  | nil => simp [processItems]
  | cons it rest ih =>
    obtain ⟨url, du⟩ := it
    have hvis : url ∉ s.visited := hdisj (url, du) (List.mem_cons_self _ _)
    have hcap' : ¬ mP ≤ s.pagesAtLevel := by
      simp only [List.length_cons] at hcap
      omega
    rw [processItems, if_neg hvis, if_neg hcap']
    simp only [List.map_cons, List.nodup_cons] at hnd
    cases hfetch : env.fetch url with
    | ok md =>
      rw [ih]
      · rw [stepSuccess_levelResults]
        have : mkPageResult env d url = mkSuccessResult d url md := by
          simp [mkPageResult, hfetch]
        simp [this, List.append_assoc]
      · exact hnd.2
      · intro p hp
        rw [stepSuccess_visited]
        simp only [List.mem_append, List.mem_singleton]
        push_neg
        refine ⟨hdisj p (List.mem_cons_of_mem _ hp), ?_⟩
        intro hpu
        exact hnd.1 (hpu ▸ List.mem_map_of_mem Prod.fst hp)
      · rw [stepSuccess_pages]
        simp only [List.length_cons] at hcap
        omega
    | error e =>
      rw [ih]
      · rw [stepFailure_eq]
        have : mkPageResult env d url = mkFailedResult d url e := by
          simp [mkPageResult, hfetch]
        simp [this, List.append_assoc]
      · exact hnd.2
      · intro p hp
        exact hdisj p (List.mem_cons_of_mem _ hp)
      · show s.pagesAtLevel + rest.length ≤ mP
        simp only [List.length_cons] at hcap
        omega

/-- Fetch outcomes that succeed produce no failed results. -/
theorem map_mkPageResult_ok_filter (env : CrawlEnv) (d : Nat) (l : List (String × Nat))
    (h : ∀ p ∈ l, fetchOk env p.1 = true) :
    (l.map (fun p => mkPageResult env d p.1)).filter (fun r => !r.success) = [] := by
  induction l with
  | nil => rfl
  | cons p rest ih =>
    simp only [List.map_cons, List.filter_cons]
    rw [mkPageResult_success, h p (List.mem_cons_self _ _)]
    simp only [Bool.not_true, Bool.false_eq_true, if_false]
    exact ih (fun q hq => h q (List.mem_cons_of_mem _ hq))

/-- At a level whose depth has reached `max_depth`, the link-extraction
branch is never taken, so `next_level` stays as it was. -/
theorem processItems_next_high (env : CrawlEnv) (mD mP d : Nat)
    (items : List (String × Nat)) (s : LevelState) (h : ¬ d < mD) :
    (processItems env mD mP d items s).nextLevel = s.nextLevel := by
  induction items generalizing s with
  | nil => rfl
  | cons it rest ih =>
    obtain ⟨url, du⟩ := it
    rw [processItems]
    by_cases hvis : url ∈ s.visited
    · rw [if_pos hvis]
      exact ih s
    · rw [if_neg hvis]
      by_cases hcap : mP ≤ s.pagesAtLevel
      · rw [if_pos hcap]
      · rw [if_neg hcap]
        cases hfetch : env.fetch url with
        | ok md =>
          rw [ih, stepSuccess_nextLevel, if_neg h]
          simp
        | error e =>
          rw [ih]
          rfl
    
/-- The recursive crawler's queue insertion preserves freedom from
duplicates: a link already in the queue is never appended again. -/
theorem recAddLinks_nodup (crawled : List String) (links queue : List String)
    (h : queue.Nodup) : (recAddLinks crawled links queue).Nodup := by
  induction links generalizing queue with
  | nil => exact h
  | cons l rest ih =>
    rw [recAddLinks]
    split
    · rename_i hc
      refine ih _ ?_
      rw [List.nodup_append]
      refine ⟨h, List.nodup_singleton l, ?_⟩
      intro a ha hb
      simp only [List.mem_singleton] at hb
      subst hb
      exact hc.2 ha
    · exact ih _ h

/-! ### The claims -/

/-- C1 (corrected).  The source adds a URL to `crawled_urls` only after
a successful fetch (line 95, inside the `try`), never on failure, so the
VisitedSet is exactly the list of successfully fetched URLs — failed
URLs are not in it and can be re-dispatched later.  What does hold: the
VisitedSet equals the successful-fetch URL list, it is duplicate-free,
and hence no URL is ever dispatched successfully more than once (at
most one successful PageResult per URL per run). -/
theorem claim1_visited_eq_successes (env : CrawlEnv) (mD mP : Nat) (seed : String) :
    (runCrawl env mD mP seed).visited
      = ((runCrawl env mD mP seed).allResults.filter
          (fun r => r.success)).map (fun r => r.url)
    ∧ (((runCrawl env mD mP seed).allResults.filter
          (fun r => r.success)).map (fun r => r.url)).Nodup := by
  have h := crawlLoop_inv env mD mP (mD + 2) [(seed, 0)]
    { visited := [], allResults := [], depthResults := [], sleeps := 0 }
    rfl List.nodup_nil rfl
  exact ⟨h.1, h.1 ▸ h.2.1⟩

/-- C1 counterexample.  In `envC1`, B's fetch fails at depth 1, B is not
marked visited, C links back to B, and B is dispatched again at depth 2:
two PageResults carry `url = "B"`, refuting both "at most one PageResult
per URL" and "a URL in the VisitedSet... never re-fetched" as the
VisitedSet story is stated. -/
theorem claim1_counterexample :
    ¬ ((((runCrawl envC1 2 2 "A").allResults.map (fun r => r.url)).count "B") ≤ 1) := by
  decide

/-- C2 (corrected).  The counter `pages_at_level` is incremented only
after a successful fetch (line 96, inside the `try`), not before
dispatch and not on failure; consequently the cap bounds only the
SUCCESSFUL PageResults of a depth. -/
theorem claim2_level_success_cap (env : CrawlEnv) (mD mP : Nat) (seed : String) :
    ∀ b ∈ (runCrawl env mD mP seed).depthResults,
      ((b.2.filter (fun r => r.success)).length ≤ mP) := by
  exact crawlLoop_cap env mD mP (mD + 2) [(seed, 0)]
    { visited := [], allResults := [], depthResults := [], sleeps := 0 }
    (by intro b hb; cases hb)

theorem claim2_witness :
    ((0 : Nat), [mkSuccessResult 0 "A" ""]) ∈ (runCrawl envTrivial 0 1 "A").depthResults
    ∧ (((0 : Nat), [mkSuccessResult 0 "A" ""]).2.filter (fun r => r.success)).length ≤ 1 := by
  have he : (runCrawl envTrivial 0 1 "A").depthResults
      = [((0 : Nat), [mkSuccessResult 0 "A" ""])] := by decide
  refine ⟨?_, claim2_level_success_cap envTrivial 0 1 "A" _ ?_⟩
  · rw [he]
    exact List.mem_singleton_self _
  · rw [he]
    exact List.mem_singleton_self _

/-- C2 counterexample.  With `max_pages_per_level = 1`, depth 1 of
`envC2` holds the three URLs B, C, D, whose fetches all fail; since
failures never increment the counter, all three are dispatched and
depth 1 records 3 PageResults, exceeding the cap of 1. -/
theorem claim2_counterexample :
    depthBreakdown (runCrawl envC2 1 1 "A") = [(0, 1), (1, 3)] ∧ ¬ ((3 : Nat) ≤ 1) := by
  constructor
  · decide
  · decide

/-- C3 (corrected).  In the Section-8 scenario the failed fetch of C
does not increment `pages_at_level`, so the depth-1 cap of 2 is not yet
reached when D comes up and D IS dispatched (its fetch also fails here):
the run returns `total_pages = 4`, `successful_pages = 2`,
`max_depth_reached = 1`, `per_depth_counts = {0: 1, 1: 3}`, with D
present in all_results but absent from the VisitedSet. -/
theorem claim3_scenario :
    totalPages (runCrawl envC3 2 2 "A") = 4
    ∧ successfulPages (runCrawl envC3 2 2 "A") = 2
    ∧ maxDepthReached (runCrawl envC3 2 2 "A") = 1
    ∧ depthBreakdown (runCrawl envC3 2 2 "A") = [(0, 1), (1, 3)]
    ∧ "D" ∈ (runCrawl envC3 2 2 "A").allResults.map (fun r => r.url)
    ∧ "D" ∉ (runCrawl envC3 2 2 "A").visited := by
  refine ⟨by decide, by decide, by decide, by decide, by decide, by decide⟩

/-- C3 counterexample.  The run of the claimed scenario dispatches four
pages, not three: D is fetched, appearing in all_results. -/
theorem claim3_counterexample :
    ¬ (totalPages (runCrawl envC3 2 2 "A") = 3)
    ∧ "D" ∈ (runCrawl envC3 2 2 "A").allResults.map (fun r => r.url) := by
  exact ⟨by decide, by decide⟩

/-- C4 (corrected).  In the depth-limited crawler, enqueuing checks only
the VisitedSet (line 128), not `next_level` membership, so a URL
reachable via two parents at the same depth is enqueued twice; what
holds is that every enqueued entry carries an unvisited-as-of-the-level
URL, and that the RECURSIVE crawler's queue insertion
(`link not in queue`, line 117) does keep its queue duplicate-free. -/
theorem claim4_enqueue_dedup (env : CrawlEnv) (mD mP d : Nat)
    (items : List (String × Nat)) (s : LevelState) :
    (∀ p ∈ (processItems env mD mP d items s).nextLevel,
        p ∈ s.nextLevel ∨ p.1 ∉ s.visited)
    ∧ (∀ crawled links queue : List String, queue.Nodup →
        (recAddLinks crawled links queue).Nodup) := by
  constructor
  · intro p hp
    rcases processItems_next_mem env mD mP d items s p hp with h | h
    · exact Or.inl h
    · exact Or.inr h.1
  · intro crawled links queue h
    exact recAddLinks_nodup crawled links queue h

theorem claim4_witness :
    (("X", (2 : Nat)) ∈ (processItems envC4 2 2 1 [("B", 1), ("C", 1)] s0).nextLevel)
    ∧ (("X", (2 : Nat)) ∈ s0.nextLevel ∨ "X" ∉ s0.visited)
    ∧ ([] : List String).Nodup
    ∧ (recAddLinks ["A"] ["X", "X"] []).Nodup := by
  have hmem : ("X", (2 : Nat)) ∈ (processItems envC4 2 2 1 [("B", 1), ("C", 1)] s0).nextLevel := by
    have he : (processItems envC4 2 2 1 [("B", 1), ("C", 1)] s0).nextLevel
        = [("X", 2), ("X", 2)] := by decide
    rw [he]
    exact List.mem_cons_self _ _
  exact ⟨hmem,
    (claim4_enqueue_dedup envC4 2 2 1 [("B", 1), ("C", 1)] s0).1 _ hmem,
    List.nodup_nil,
    (claim4_enqueue_dedup envC4 2 2 1 [("B", 1), ("C", 1)] s0).2 ["A"] ["X", "X"] [] List.nodup_nil⟩

/-- C4 counterexample.  Two depth-1 parents B and C both discover X; the
enqueue loop checks only `crawled_urls`, so `next_level` ends up holding
the WorkItem ("X", 2) twice. -/
theorem claim4_counterexample :
    (processItems envC4 2 2 1 [("B", 1), ("C", 1)] s0).nextLevel
      = [("X", 2), ("X", 2)] := by
  decide

/-- C5 (corrected).  The `asyncio.sleep` call sits inside the `try`
block (line 136), after the link extraction: it runs once per
SUCCESSFUL dispatch, and a failed fetch proceeds to the next item with
no delay at all.  The number of executed sleeps in a run equals the
number of successful pages, not the number of dispatched pages. -/
theorem claim5_sleeps_eq_successes (env : CrawlEnv) (mD mP : Nat) (seed : String) :
    (runCrawl env mD mP seed).sleeps = successfulPages (runCrawl env mD mP seed) := by
  exact (crawlLoop_inv env mD mP (mD + 2) [(seed, 0)]
    { visited := [], allResults := [], depthResults := [], sleeps := 0 }
    rfl List.nodup_nil rfl).2.2

/-- C5 counterexample.  In `envC5` the run dispatches two pages (A
succeeds, B fails) but sleeps only once — after A — so the delay is NOT
applied after every dispatched item. -/
theorem claim5_counterexample :
    (runCrawl envC5 1 2 "A").sleeps = 1
    ∧ totalPages (runCrawl envC5 1 2 "A") = 2
    ∧ ¬ ((runCrawl envC5 1 2 "A").sleeps = totalPages (runCrawl envC5 1 2 "A")) := by
  exact ⟨by decide, by decide, by decide⟩

/-- C6 (confirmed).  If the fetch of exactly one URL `f` in a level of
n > 1 pairwise-distinct, unvisited URLs raises (and the level fits under
the per-level cap, so that every item is dispatched), the level still
records n PageResults: the failed dispatch records a failed PageResult
carrying the error's description and the loop continues with the next
WorkItem — a single-page failure never aborts the level. -/
theorem claim6_failure_isolation (env : CrawlEnv) (mD mP d : Nat)
    (pre post : List (String × Nat)) (f : String) (df : Nat) (e : String) (s : LevelState)
    (hlr : s.levelResults = []) (hp0 : s.pagesAtLevel = 0)
    (hnd : ((pre ++ (f, df) :: post).map Prod.fst).Nodup)
    (hdisj : ∀ p ∈ pre ++ (f, df) :: post, p.1 ∉ s.visited)
    (hcap : (pre ++ (f, df) :: post).length ≤ mP)
    (_hn : 1 < (pre ++ (f, df) :: post).length)
    (hf : env.fetch f = Except.error e)
    (hok : ∀ p ∈ pre ++ post, fetchOk env p.1 = true) :
    (processItems env mD mP d (pre ++ (f, df) :: post) s).levelResults.length
      = (pre ++ (f, df) :: post).length
    ∧ (processItems env mD mP d (pre ++ (f, df) :: post) s).levelResults.filter
        (fun r => !r.success) = [mkFailedResult d f e] := by
  have hcomp := processItems_complete env mD mP d (pre ++ (f, df) :: post) s hnd hdisj
    (by omega)
  rw [hcomp, hlr, List.nil_append]
  constructor
  · simp
  · have hfr : mkPageResult env d f = mkFailedResult d f e := by
      simp [mkPageResult, hf]
    have hpre : (pre.map (fun p => mkPageResult env d p.1)).filter (fun r => !r.success) = [] :=
      map_mkPageResult_ok_filter env d pre
        (fun q hq => hok q (List.mem_append_left _ hq))
    have hpost : (post.map (fun p => mkPageResult env d p.1)).filter (fun r => !r.success) = [] :=
      map_mkPageResult_ok_filter env d post
        (fun q hq => hok q (List.mem_append_right _ hq))
    rw [List.map_append, List.map_cons, List.filter_append, List.filter_cons, hpre, hfr]
    simp [mkFailedResult, hpost]

theorem claim6_witness :
    envC6w.fetch "C" = Except.error "boom"
    ∧ (1 : Nat) < 2
    ∧ (processItems envC6w 1 2 1 ([("B", (1 : Nat))] ++ ("C", 1) :: []) s0).levelResults.length = 2
    ∧ (processItems envC6w 1 2 1 ([("B", (1 : Nat))] ++ ("C", 1) :: []) s0).levelResults.filter
        (fun r => !r.success) = [mkFailedResult 1 "C" "boom"] := by
  have h := claim6_failure_isolation envC6w 1 2 1 [("B", (1 : Nat))] [] "C" 1 "boom" s0
    rfl rfl (by decide) (by decide) (by decide) (by decide) rfl (by decide)
  exact ⟨rfl, by decide, h.1, h.2⟩

/-- C7 (confirmed).  Candidates discovered at depth d are enqueued as
WorkItems at depth exactly d + 1; link extraction happens only when
d < max_depth (so `next_level` stays untouched once d has reached
max_depth); and no recorded PageResult ever has depth greater than
max_depth, because the outer loop breaks before processing any deeper
level. -/
theorem claim7_depth_bounds (env : CrawlEnv) (mD mP : Nat) :
    (∀ seed r, r ∈ (runCrawl env mD mP seed).allResults → r.depth ≤ mD)
    ∧ (∀ d items s p, p ∈ (processItems env mD mP d items s).nextLevel →
        p ∈ s.nextLevel ∨ p.2 = d + 1)
    ∧ (∀ d items s, ¬ d < mD →
        (processItems env mD mP d items s).nextLevel = s.nextLevel) := by
  refine ⟨?_, ?_, ?_⟩
  · intro seed r hr
    exact crawlLoop_depth_le env mD mP (mD + 2) [(seed, 0)]
      { visited := [], allResults := [], depthResults := [], sleeps := 0 }
      (by intro r' hr'; cases hr') r hr
  · intro d items s p hp
    rcases processItems_next_mem env mD mP d items s p hp with h | h
    · exact Or.inl h
    · exact Or.inr h.2
  · intro d items s h
    exact processItems_next_high env mD mP d items s h

theorem claim7_witness :
    (mkSuccessResult 0 "A" "m" ∈ (runCrawl envC4 0 1 "A").allResults)
    ∧ (mkSuccessResult 0 "A" "m").depth ≤ 0
    ∧ (("X", (1 : Nat)) ∈ (processItems envC4 1 1 0 [("A", 0)] s0).nextLevel)
    ∧ (("X", (1 : Nat)) ∈ s0.nextLevel ∨ (("X", (1 : Nat)).2 = 0 + 1))
    ∧ ¬ (0 : Nat) < 0
    ∧ (processItems envC4 0 1 0 [("A", 0)] s0).nextLevel = s0.nextLevel := by
  have hall : (runCrawl envC4 0 1 "A").allResults = [mkSuccessResult 0 "A" "m"] := by decide
  have hmem1 : mkSuccessResult 0 "A" "m" ∈ (runCrawl envC4 0 1 "A").allResults := by
    rw [hall]
    exact List.mem_singleton_self _
  have hnl : (processItems envC4 1 1 0 [("A", 0)] s0).nextLevel = [("X", 1)] := by decide
  have hmem2 : ("X", (1 : Nat)) ∈ (processItems envC4 1 1 0 [("A", 0)] s0).nextLevel := by
    rw [hnl]
    exact List.mem_singleton_self _
  exact ⟨hmem1,
    (claim7_depth_bounds envC4 0 1).1 "A" _ hmem1,
    hmem2,
    (claim7_depth_bounds envC4 1 1).2.1 0 [("A", 0)] s0 _ hmem2,
    by decide,
    (claim7_depth_bounds envC4 0 1).2.2 0 [("A", 0)] s0 (by decide)⟩

/-- C8 (corrected).  Both extractors return duplicate-free candidate
lists and are total functions of their input (no exception can
propagate: the pipeline is regex matching plus pure list processing,
and zero matches simply yield the empty list).  The cap of 5, however,
is NOT enforced by the depth-limited crawler's extractor: that extractor
returns every article link it finds (the `[:5]` truncation happens at
its call site, line 127); only the recursive crawler's extractor
truncates its own result to at most 5.  The output order is CPython's
unspecified set-iteration order, not the order of first discovery. -/
theorem claim8_extractor (ms : List String) :
    (extract_guardian_links ms).Nodup
    ∧ (extract_guardian_links_rec ms).Nodup
    ∧ (extract_guardian_links_rec ms).length ≤ 5 := by
  refine ⟨List.nodup_dedup _, ?_, ?_⟩
  · exact ((List.take_sublist _ _).nodup (List.nodup_dedup _))
  · exact List.length_take_le _ _

/-- C8 counterexample.  A content whose regex matches are six distinct
article URLs makes the depth-limited crawler's extractor return six
candidates — more than the claimed cap of 5. -/
theorem claim8_counterexample :
    (extract_guardian_links gl6).length = 6 ∧ ¬ ((6 : Nat) ≤ 5) := by
  exact ⟨by decide, by decide⟩

/-- C9 (corrected).  `DepthLimitedCrawler.__init__` (lines 26-31)
performs no validation whatsoever and the repository defines no
`ConfigurationError`: with `max_pages_per_level = 0` (i.e. < 1) the
crawl starts normally and returns an ordinary summary.  What does hold
is the second half of the claim: the cap check precedes every fetch, so
under such a configuration no fetch is ever dispatched and no PageResult
is produced — the run records a single empty depth-0 bucket. -/
theorem claim9_no_validation (env : CrawlEnv) (mD : Nat) (seed : String) :
    (runCrawl env mD 0 seed).allResults = []
    ∧ (runCrawl env mD 0 seed).depthResults = [(0, [])]
    ∧ (runCrawl env mD 0 seed).visited = [] := by
  exact ⟨rfl, rfl, rfl⟩

/-- C9 counterexample.  With `max_pages_per_level = 0` the run is not
aborted before starting: the level loop executes, records an (empty)
depth-0 bucket and returns a well-formed summary — no error of any kind
is surfaced to the caller. -/
theorem claim9_counterexample :
    (runCrawl envTrivial 3 0 "A").depthResults = [(0, [])]
    ∧ totalPages (runCrawl envTrivial 3 0 "A") = 0 := by
  exact ⟨by decide, by decide⟩

/-- C10 (confirmed).  In `envC10`, C is discovered by B at depth 1 and
enqueued for depth 2, but is then itself fetched later at depth 1; when
the depth-2 level runs, its only item is already visited, so nothing is
dispatched — yet the bucket for depth 2 is still recorded, with count 0,
and `max_depth_reached` is 2 although no PageResult has depth 2. -/
theorem claim10_empty_bucket :
    depthBreakdown (runCrawl envC10 2 2 "A") = [(0, 1), (1, 2), (2, 0)]
    ∧ maxDepthReached (runCrawl envC10 2 2 "A") = 2
    ∧ (runCrawl envC10 2 2 "A").allResults.map (fun r => r.depth) = [0, 1, 1] := by
  exact ⟨by decide, by decide, by decide⟩
